import Mathlib

/-!
Shallow embedding, in Lean 4, of the rendering engine in `src/rt.c`.

Conventions of the embedding:
* C `double` values are modelled as exact rationals (`ℚ`); the IEEE value
  `INFINITY` returned by intersection routines is modelled by `⊤` in
  `WithTop ℚ`, so a distance is a value of type `WithTop ℚ` and `isinf d`
  becomes `d = ⊤`.
* The polymorphic C interfaces (`obj->intersect`, `mat->shade`, function
  pointers of type `render_mode_f`) are modelled as plain Lean functions.
  An object is the function `ray → WithTop ℚ × object_intersection`
  implemented by its `intersect` callback (the written-out intersection
  record paired with the returned distance); a material is its `shade`
  callback with the scene argument pre-applied (the scene a material
  closes over is fixed for the whole render, so partial application is
  faithful).
* The C out-parameter `struct object_intersection *closest_intersection`
  of `scene_intersect_ray` starts uninitialized and is written only when a
  strictly closer hit is found.  The embedding makes that explicit: the
  function returns `Option object_intersection`, `none` meaning the slot
  was never written, and each caller supplies a `junk` record standing for
  the arbitrary initial contents of its stack-allocated slot, read back
  with `Option.getD junk`.
* `rand()` draws are made explicit: every call of `random_double` consumes
  one value `η k ∈ [0,1)` from a stream `η : ℕ → ℚ` (the C expression
  `rand() / (RAND_MAX + 1.0)`), indexed in call order.
-/

namespace RT

/-- Three-component vector.  Modelled from the spec: `vec3.h` / `vec3.c` are not
under `src/`; §3 of the spec gives a `(x, y, z)` double triple. -/
structure vec3 where
  x : ℚ
  y : ℚ
  z : ℚ
deriving DecidableEq

/-- Componentwise vector addition.  Modelled from the spec: `vec3.c` is not
under `src/`; §3 lists `add` among the vector operations. -/
def vec3_add (a b : vec3) : vec3 :=
  ⟨a.x + b.x, a.y + b.y, a.z + b.z⟩

/-- Scalar multiplication.  Modelled from the spec: `vec3.c` is not under
`src/`; §3 lists `scale` among the vector operations. -/
def vec3_mul (a : vec3) (s : ℚ) : vec3 :=
  ⟨a.x * s, a.y * s, a.z * s⟩

/-- Dot product, used to express reflection. -/
def vec3_dot (a b : vec3) : ℚ :=
  a.x * b.x + a.y * b.y + a.z * b.z

/-- Mirror reflection of direction `d` about normal `n`.  Modelled from the
spec: `vec3.c` is not under `src/`; §3 lists `reflect about a normal`, the
standard formula `d - 2(d·n)n`. -/
def vec3_reflect (d n : vec3) : vec3 :=
  vec3_add d (vec3_mul n (-2 * vec3_dot d n))

/-- A ray, with the field names of `struct ray` as used in `rt.c`
(`reflect_ray.source`, `reflect_ray.direction`). -/
structure ray where
  source : vec3
  direction : vec3
deriving DecidableEq

/-- Pinhole camera parameters (`struct camera`, fields as used in
`build_obj_scene`). -/
structure camera where
  center : vec3
  forward : vec3
  up : vec3
  width : ℚ
  height : ℚ
  focal_distance : ℚ
deriving DecidableEq

/-- Surface-hit location (`closest_intersection.location.point` /
`.location.normal` in `rt.c`). -/
structure intersection where
  point : vec3
  normal : vec3
deriving DecidableEq

/-- A material is its `shade` callback (`mat->shade(mat, &location, scene,
ray)`), with the self pointer and the scene argument pre-applied. -/
def Material : Type := intersection → ray → vec3

/-- The record written by an object's `intersect` callback
(`struct object_intersection`): hit location plus the hit material. -/
structure object_intersection where
  location : intersection
  material : Material

/-- An object is its `intersect` callback
(`obj->intersect(&intersection, obj, ray)`), returning the distance
(`⊤` = `INFINITY` = miss) paired with the record it writes out. -/
def Object : Type := ray → WithTop ℚ × object_intersection

/-- The scene (`struct scene`): object collection, directional light,
camera. -/
structure scene where
  objects : List Object
  light_intensity : ℚ
  light_color : vec3
  light_direction : vec3
  camera : camera

/-- Sample count per pixel: `#define NUM_SAMPLES 4` in `rt.c`. -/
def NUM_SAMPLES : ℕ := 4

/-- Recursion depth budget: `#define MAX_DEPTH 10` in `rt.c`. -/
def MAX_DEPTH : ℤ := 10

/-- One step of the loop body of `scene_intersect_ray`: skip the object if
`intersection_dist >= closest_intersection_dist`, otherwise replace the
current best distance and write the out-parameter slot. -/
def intersect_step (r : ray) (acc : WithTop ℚ × Option object_intersection)
    (obj : Object) : WithTop ℚ × Option object_intersection :=
  let res := obj r
  if res.1 ≥ acc.1 then acc else (res.1, some res.2)

/-- Embeds `scene_intersect_ray` (`rt.c:170-192`): linear scan over
`scene->objects`, starting from `closest_intersection_dist = INFINITY` and
an unwritten out-parameter slot. -/
def scene_intersect_ray (s : scene) (r : ray) :
    WithTop ℚ × Option object_intersection :=
  s.objects.foldl (intersect_step r) (⊤, none)

section IntersectLemmas

variable (r : ray)

/-- The first component of one loop step is the minimum of the incoming
best distance and the object's distance. -/
theorem intersect_step_fst (acc : WithTop ℚ × Option object_intersection)
    (obj : Object) :
    (intersect_step r acc obj).1 = min acc.1 (obj r).1 := by
  simp only [intersect_step, ge_iff_le, min_def]
  split <;> rfl

/-- The scanned distance over any prefix is the running minimum of the
objects' reported distances, for any starting accumulator. -/
theorem foldl_intersect_fst (os : List Object)
    (acc : WithTop ℚ × Option object_intersection) :
    (os.foldl (intersect_step r) acc).1
      = (os.map (fun o => (o r).1)).foldl min acc.1 := by
  induction os generalizing acc with
  | nil => rfl
  | cons o os ih =>
      simp only [List.foldl_cons, List.map_cons, ih, intersect_step_fst]

/-- The scanned distance is the minimum of the objects' reported
distances. -/
theorem scene_intersect_ray_fst_foldl (s : scene) :
    (scene_intersect_ray s r).1
      = (s.objects.map (fun o => (o r).1)).foldl min ⊤ := by
  exact foldl_intersect_fst r s.objects (⊤, none)

/-- The out-parameter slot is written exactly when the scanned distance is
finite: one loop step preserves the invariant. -/
theorem foldl_intersect_none_iff (os : List Object)
    (acc : WithTop ℚ × Option object_intersection)
    (h : acc.1 = ⊤ ↔ acc.2 = none) :
    ((os.foldl (intersect_step r) acc).1 = ⊤
      ↔ (os.foldl (intersect_step r) acc).2 = none) := by
  induction os generalizing acc with
  | nil => exact h
  | cons o os ih =>
      refine ih _ ?_
      simp only [intersect_step, ge_iff_le]
      split
      · exact h
      · rename_i hlt
        constructor
        · intro htop
          exact absurd (htop ▸ le_top) hlt
        · intro hsome
          simp at hsome

/-- The query reports a finite distance iff it wrote its out-parameter
slot. -/
theorem scene_intersect_ray_none_iff (s : scene) :
    ((scene_intersect_ray s r).1 = ⊤ ↔ (scene_intersect_ray s r).2 = none) := by
  exact foldl_intersect_none_iff r s.objects (⊤, none) (by simp)

/-- If every remaining object misses, the loop leaves the accumulator
unchanged. -/
theorem foldl_intersect_all_miss (os : List Object)
    (acc : WithTop ℚ × Option object_intersection)
    (h : ∀ o ∈ os, (o r).1 = ⊤) :
    os.foldl (intersect_step r) acc = acc := by
  induction os generalizing acc with
  | nil => rfl
  | cons o os ih =>
      have ho : (o r).1 = ⊤ := h o (List.mem_cons_self o os)
      have hstep : intersect_step r acc o = acc := by
        simp only [intersect_step, ho, ge_iff_le]
        rw [if_pos le_top]
      rw [List.foldl_cons, hstep]
      exact ih acc (fun o' ho' => h o' (List.mem_cons_of_mem o ho'))

/-- If every object in the scene misses the ray, the query returns
`(INFINITY, slot unwritten)`. -/
theorem scene_intersect_ray_all_miss (s : scene)
    (h : ∀ o ∈ s.objects, (o r).1 = ⊤) :
    scene_intersect_ray s r = (⊤, none) := by
  exact foldl_intersect_all_miss r s.objects (⊤, none) h

end IntersectLemmas

/-- Embeds `render_shaded` (`rt.c:196-220`): return black at exhausted depth or on
a miss, otherwise `0.2 · trace(reflect_ray, depth−1) + shade(hit)` where
`reflect_ray` starts at the hit point in the mirrored direction.  `junk`
stands for the arbitrary initial contents of the uninitialized
`closest_intersection` stack slot. -/
def render_shaded (junk : object_intersection) (s : scene) (r : ray)
    (depth : ℤ) : vec3 :=
  if depth ≤ 0 then ⟨0, 0, 0⟩
  else
    let q := scene_intersect_ray s r
    if q.1 = ⊤ then ⟨0, 0, 0⟩
    else
      let ci := q.2.getD junk
      let reflect_ray : ray :=
        ⟨ci.location.point, vec3_reflect r.direction ci.location.normal⟩
      let reflect_color :=
        vec3_mul (render_shaded junk s reflect_ray (depth - 1)) (1/5)
      let ori_color := ci.material ci.location r
      vec3_add reflect_color ori_color
  termination_by depth.toNat
  decreasing_by
    rename_i hd _
    simp only [not_le] at hd
    omega

/-- The normal-visualizer shade function (`normal_material.shade`).
Modelled from the spec: `normal_material.c` is not under `src/`; §4.3 says
it returns the hit normal remapped as `(n+1)/2` per axis, ignoring
lighting. -/
def normal_material_shade (loc : intersection) (_r : ray) : vec3 :=
  ⟨(loc.normal.x + 1) / 2, (loc.normal.y + 1) / 2, (loc.normal.z + 1) / 2⟩

/-- Embeds `render_normals` (`rt.c:226-242`): one non-recursive query; black on a
miss, otherwise the normal-visualizer shade of the hit (the `depth`
argument is ignored). -/
def render_normals (junk : object_intersection) (s : scene) (r : ray)
    (_depth : ℤ) : vec3 :=
  let q := scene_intersect_ray s r
  if q.1 = ⊤ then ⟨0, 0, 0⟩
  else
    let ci := q.2.getD junk
    normal_material_shade ci.location r

/-- Embeds `render_distances` (`rt.c:248-267`): one non-recursive query; black on
a miss, otherwise intensity `1 / (distance + 1)` replicated across the
three channels (the `depth` argument is ignored).  The finite distance is
read with `untop' 0`; the default is dead code because the `isinf` guard
has already excluded `⊤`. -/
def render_distances (s : scene) (r : ray) (_depth : ℤ) : vec3 :=
  let q := scene_intersect_ray s r
  if q.1 = ⊤ then ⟨0, 0, 0⟩
  else
    let depth_repr := 1 / (q.1.untop' 0 + 1)
    ⟨depth_repr, depth_repr, depth_repr⟩

/-- The named depth-to-intensity formula of the distance visualizer. -/
def distance_repr (d : ℚ) : ℚ := 1 / (d + 1)

/-- Embeds `random_double` (`rt.c:115-122`) with the `rand()` draw made explicit:
`u` stands for `rand() / (RAND_MAX + 1.0) ∈ [0,1)`. -/
def random_double (lo hi u : ℚ) : ℚ := lo + (hi - lo) * u

/-- The body of the sampling loop of `image_cast_ray` (`rt.c:127-168`) for
sample index `i`: the `v` jitter consumes the stream value `η (2*i)`, the
`u` jitter the value `η (2*i+1)` (two `rand()` calls per iteration, `v`
first).  `rank = sqrt(NUM_SAMPLES) = 2` exactly, and the C double
comparison `i < l + rank/2` is `i < l + 1`. -/
def image_cast_sample (cast : ℚ → ℚ → ray) (iw ih : ℚ) (x y : ℕ)
    (η : ℕ → ℚ) (i : ℕ) : ray :=
  let rank : ℕ := 2
  let v : ℚ :=
    if i < NUM_SAMPLES / 2 then (y : ℚ) + random_double 0 (1/2) (η (2*i))
    else (y : ℚ) + random_double (1/2) 1 (η (2*i))
  let l : ℕ := i - i % rank
  let u : ℚ :=
    if l ≤ i ∧ i < l + rank / 2 then
      (x : ℚ) + random_double 0 (1/2) (η (2*i+1))
    else (x : ℚ) + random_double (1/2) 1 (η (2*i+1))
  cast (u / iw - 1/2) (v / ih - 1/2)

/-- Embeds `image_cast_ray` (`rt.c:127-168`): the array of `NUM_SAMPLES` jittered
camera rays for pixel `(x, y)`.  The camera map `cast` stands for
`camera_cast_ray(·, &scene->camera, cam_x, cam_y)`, whose implementation
(`camera.c`) is not under `src/`. -/
def image_cast_ray (cast : ℚ → ℚ → ray) (iw ih : ℚ) (x y : ℕ)
    (η : ℕ → ℚ) : List ray :=
  (List.range NUM_SAMPLES).map (image_cast_sample cast iw ih x y η)

/-- Embeds `aa_render` (`rt.c:269-286`): sum the renderer's color over the
`NUM_SAMPLES` jittered rays, each traced at `MAX_DEPTH`, and scale by
`1.0 / NUM_SAMPLES`.  (The final `rgb_color_from_light` quantization is an
external collaborator; the model stops at the linear-light color.) -/
def aa_render (renderer : scene → ray → ℤ → vec3) (cast : ℚ → ℚ → ray)
    (iw ih : ℚ) (s : scene) (x y : ℕ) (η : ℕ → ℚ) : vec3 :=
  let rays := image_cast_ray cast iw ih x y η
  let pix := rays.foldl
    (fun acc ri => vec3_add acc (renderer s ri MAX_DEPTH)) ⟨0, 0, 0⟩
  vec3_mul pix (1 / (NUM_SAMPLES : ℚ))

/-- Start of worker `k`'s row range (`rt.c:342`):
`tinfo[tnum].y_s = tnum * image->height / num_threads`. -/
def worker_row_start (height n k : ℕ) : ℕ := k * height / n

/-- End (exclusive) of worker `k`'s row range (`rt.c:343`):
`tinfo[tnum].y_e = (tnum + 1) * image->height / num_threads`. -/
def worker_row_end (height n k : ℕ) : ℕ := (k + 1) * height / n

/-- The three render modes selectable from the command line. -/
inductive render_mode where
  | shaded : render_mode
  | normals : render_mode
  | distances : render_mode
deriving DecidableEq

/-- One iteration of the option-parsing loop of `main` (`rt.c:398-404`):
`--normals` and `--distances` each overwrite the current choice, anything
else is ignored. -/
def option_step (m : render_mode) (a : String) : render_mode :=
  if a = "--normals" then render_mode.normals
  else if a = "--distances" then render_mode.distances
  else m

/-- The option-parsing loop of `main` (`rt.c:397-404`): start from
`render_shaded` and scan `argv[3..]`. -/
def select_renderer (argv : List String) : render_mode :=
  (argv.drop 3).foldl option_step render_mode.shaded

/-- The exit-code skeleton of `main` plus `multithreading`
(`rt.c:325-421`), with the outcomes of the external steps as parameters:
`errx(1)` on `argc < 3`, `return 41` when `load_obj` fails, `errx(42)`
when `pthread_create` or `pthread_join` fails, `err(1)` when the output
file cannot be opened, else the return code of `bmp_write`. -/
def main_exit (argv : List String) (load_ok create_ok join_ok file_ok : Bool)
    (bmp_rc : ℤ) : ℤ :=
  if argv.length < 3 then 1
  else if load_ok = false then 41
  else if create_ok = false then 42
  else if join_ok = false then 42
  else if file_ok = false then 1
  else bmp_rc

section StepLemmas

variable (r : ray)

/-- A strictly closer hit replaces the accumulator. -/
theorem intersect_step_of_lt (acc : WithTop ℚ × Option object_intersection)
    (obj : Object) (h : (obj r).1 < acc.1) :
    intersect_step r acc obj = ((obj r).1, some (obj r).2) := by
  simp only [intersect_step, ge_iff_le]
  rw [if_neg (not_le.mpr h)]

/-- A hit at least as far as the current best is skipped. -/
theorem intersect_step_of_ge (acc : WithTop ℚ × Option object_intersection)
    (obj : Object) (h : acc.1 ≤ (obj r).1) :
    intersect_step r acc obj = acc := by
  simp only [intersect_step, ge_iff_le]
  rw [if_pos h]

end StepLemmas

/-! Concrete fixtures used by the witness theorems. -/

/-- A concrete material, used by witnesses. -/
def wmat : Material := fun _ _ => ⟨0, 0, 0⟩

/-- A concrete intersection record, used by witnesses. -/
def wrec1 : object_intersection := ⟨⟨⟨1, 0, 0⟩, ⟨0, 0, 1⟩⟩, wmat⟩

/-- A second, distinguishable intersection record. -/
def wrec2 : object_intersection := ⟨⟨⟨2, 0, 0⟩, ⟨0, 0, 1⟩⟩, wmat⟩

/-- A concrete object hitting every ray at distance 2. -/
def wobj1 : Object := fun _ => (((2 : ℚ) : WithTop ℚ), wrec1)

/-- A concrete object hitting every ray at distance 3. -/
def wobj2 : Object := fun _ => (((3 : ℚ) : WithTop ℚ), wrec2)

/-- A concrete object that misses every ray. -/
def wobjmiss : Object := fun _ => ((⊤ : WithTop ℚ), wrec2)

/-- A concrete camera, used by witnesses. -/
def wcam : camera := ⟨⟨0, 0, 0⟩, ⟨0, 1, 0⟩, ⟨0, 0, 1⟩, 10, 10, 5⟩

/-- A concrete ray, used by witnesses. -/
def wray : ray := ⟨⟨0, 0, 0⟩, ⟨0, 1, 0⟩⟩

/-- A concrete two-object scene, nearer object first. -/
def wscene12 : scene := ⟨[wobj1, wobj2], 5, ⟨1, 1, 1⟩, ⟨0, 1, -2⟩, wcam⟩

/-- The same two-object scene with insertion order swapped. -/
def wscene21 : scene := ⟨[wobj2, wobj1], 5, ⟨1, 1, 1⟩, ⟨0, 1, -2⟩, wcam⟩

/-- A concrete scene whose every object misses every ray. -/
def wscenemiss : scene := ⟨[wobjmiss], 5, ⟨1, 1, 1⟩, ⟨0, 1, -2⟩, wcam⟩

/-- C1: `scene_intersect_ray` linearly scans all objects tracking the
minimal distance seen so far (the scanned distance is the running minimum
of the objects' reported distances), an intersection replaces the current
best only if strictly closer, so for two objects overlapping along a ray
the strictly closer positive hit wins regardless of insertion order, and
on an exact tie the first-encountered object wins. -/
theorem claim_C1 :
    (∀ (s : scene) (r : ray),
        (scene_intersect_ray s r).1
          = (s.objects.map (fun o => (o r).1)).foldl min ⊤)
    ∧ (∀ (s s' : scene) (o₁ o₂ : Object) (r : ray),
        s.objects = [o₁, o₂] → s'.objects = [o₂, o₁] →
        0 < (o₁ r).1 → 0 < (o₂ r).1 → (o₂ r).1 ≠ ⊤ →
        (o₁ r).1 < (o₂ r).1 →
        scene_intersect_ray s r = ((o₁ r).1, some (o₁ r).2)
          ∧ scene_intersect_ray s' r = ((o₁ r).1, some (o₁ r).2))
    ∧ (∀ (s : scene) (o₁ o₂ : Object) (r : ray),
        s.objects = [o₁, o₂] →
        (o₁ r).1 = (o₂ r).1 → (o₁ r).1 ≠ ⊤ →
        scene_intersect_ray s r = ((o₁ r).1, some (o₁ r).2)) := by
  refine ⟨fun s r => scene_intersect_ray_fst_foldl r s, ?_, ?_⟩
  · intro s s' o₁ o₂ r hs hs' _h₁ _h₂ hfin hlt
    have h₁top : (o₁ r).1 < ⊤ := hlt.trans_le le_top
    constructor
    · show (s.objects.foldl (intersect_step r) (⊤, none)) = _
      rw [hs, List.foldl_cons, List.foldl_cons, List.foldl_nil]
      rw [intersect_step_of_lt r _ _ h₁top,
        intersect_step_of_ge r _ _ hlt.le]
    · show (s'.objects.foldl (intersect_step r) (⊤, none)) = _
      rw [hs', List.foldl_cons, List.foldl_cons, List.foldl_nil]
      rw [intersect_step_of_lt r _ _ (lt_top_iff_ne_top.mpr hfin),
        intersect_step_of_lt r _ _ hlt]
  · intro s o₁ o₂ r hs heq hfin
    show (s.objects.foldl (intersect_step r) (⊤, none)) = _
    rw [hs, List.foldl_cons, List.foldl_cons, List.foldl_nil]
    rw [intersect_step_of_lt r _ _ (lt_top_iff_ne_top.mpr hfin),
      intersect_step_of_ge r _ _ heq.le]

/-- Witness for C1 at a concrete two-object scene: the closer object (at
distance 2) wins in both insertion orders. -/
theorem claim_C1_witness :
    scene_intersect_ray wscene12 wray = (((2 : ℚ) : WithTop ℚ), some wrec1)
      ∧ scene_intersect_ray wscene21 wray
          = (((2 : ℚ) : WithTop ℚ), some wrec1) := by
  have h := claim_C1.2.1 wscene12 wscene21 wobj1 wobj2 wray rfl rfl
    (by decide) (by decide) (by decide) (by decide)
  exact ⟨h.1, h.2⟩

section RenderLemmas

/-- At non-positive depth the shaded renderer returns black at once. -/
theorem render_shaded_of_depth_le (junk : object_intersection) (s : scene)
    (r : ray) (depth : ℤ) (h : depth ≤ 0) :
    render_shaded junk s r depth = ⟨0, 0, 0⟩ := by
  rw [render_shaded]
  rw [if_pos h]

/-- On a miss (infinite scanned distance) the shaded renderer returns
black. -/
theorem render_shaded_of_top (junk : object_intersection) (s : scene)
    (r : ray) (depth : ℤ) (h : (scene_intersect_ray s r).1 = ⊤) :
    render_shaded junk s r depth = ⟨0, 0, 0⟩ := by
  rw [render_shaded]
  split
  · rfl
  · simp only [h, if_true]

/-- On a hit the shaded renderer returns the recursive reflected color,
attenuated by `0.2`, plus the hit material's shade. -/
theorem render_shaded_of_some (junk : object_intersection) (s : scene)
    (r : ray) (depth : ℤ) (hd : 0 < depth) (ci : object_intersection)
    (h : (scene_intersect_ray s r).2 = some ci) :
    render_shaded junk s r depth
      = vec3_add
          (vec3_mul
            (render_shaded junk s
              ⟨ci.location.point, vec3_reflect r.direction ci.location.normal⟩
              (depth - 1))
            (1/5))
          (ci.material ci.location r) := by
  have htop : ¬ (scene_intersect_ray s r).1 = ⊤ := by
    intro ht
    rw [(scene_intersect_ray_none_iff r s).mp ht] at h
    exact Option.noConfusion h
  rw [render_shaded]
  rw [if_neg (not_le.mpr hd)]
  simp only [htop, if_false, h, Option.getD_some]

end RenderLemmas

/-- C5: the reflection recursion terminates because the depth argument
strictly decreases (the embedded `render_shaded` is accepted by
well-founded recursion on `depth.toNat`); in particular at depth `0` — or
any exhausted depth — the renderer returns black immediately, with a
result independent of the scene, i.e. without issuing the nearest-hit
query or any recursive call. -/
theorem claim_C5 :
    (∀ (junk : object_intersection) (s : scene) (r : ray),
        render_shaded junk s r 0 = ⟨0, 0, 0⟩)
    ∧ (∀ (junk : object_intersection) (s : scene) (r : ray) (depth : ℤ),
        depth ≤ 0 → render_shaded junk s r depth = ⟨0, 0, 0⟩)
    ∧ (∀ (junk : object_intersection) (s₁ s₂ : scene) (r : ray) (depth : ℤ),
        depth ≤ 0 →
        render_shaded junk s₁ r depth = render_shaded junk s₂ r depth) := by
  refine ⟨fun junk s r => render_shaded_of_depth_le junk s r 0 le_rfl,
    fun junk s r depth h => render_shaded_of_depth_le junk s r depth h,
    fun junk s₁ s₂ r depth h => ?_⟩
  rw [render_shaded_of_depth_le junk s₁ r depth h,
    render_shaded_of_depth_le junk s₂ r depth h]

/-- Witness for C5: at depth 0 (and at a negative exhausted depth) the
shaded renderer returns black on a concrete scene with objects in front of
the ray. -/
theorem claim_C5_witness :
    render_shaded wrec1 wscene12 wray 0 = ⟨0, 0, 0⟩
      ∧ render_shaded wrec1 wscene12 wray (-1) = ⟨0, 0, 0⟩ := by
  exact ⟨claim_C5.1 wrec1 wscene12 wray,
    claim_C5.2.1 wrec1 wscene12 wray (-1) (by decide)⟩

/-- C10: when no object intersects the ray, `scene_intersect_ray` returns
`+infinity` without writing its out-parameter slot; the slot is written
exactly when the returned distance is finite; and every caller tests the
distance and returns black before reading the record, for any junk initial
contents of its uninitialized slot. -/
theorem claim_C10 :
    (∀ (s : scene) (r : ray),
        (∀ o ∈ s.objects, (o r).1 = ⊤) →
        scene_intersect_ray s r = (⊤, none))
    ∧ (∀ (s : scene) (r : ray),
        ((scene_intersect_ray s r).1 = ⊤
          ↔ (scene_intersect_ray s r).2 = none))
    ∧ (∀ (junk : object_intersection) (s : scene) (r : ray) (depth : ℤ),
        (scene_intersect_ray s r).1 = ⊤ →
        render_shaded junk s r depth = ⟨0, 0, 0⟩
          ∧ render_normals junk s r depth = ⟨0, 0, 0⟩
          ∧ render_distances s r depth = ⟨0, 0, 0⟩) := by
  refine ⟨fun s r h => scene_intersect_ray_all_miss r s h,
    fun s r => scene_intersect_ray_none_iff r s,
    fun junk s r depth h => ⟨render_shaded_of_top junk s r depth h, ?_, ?_⟩⟩
  · simp only [render_normals, h, if_true]
  · simp only [render_distances, h, if_true]

/-- Witness for C10 at a concrete all-miss scene: the query returns
`(⊤, unwritten)` and all three render modes return black, for two
different junk records. -/
theorem claim_C10_witness :
    scene_intersect_ray wscenemiss wray = (⊤, none)
      ∧ render_shaded wrec1 wscenemiss wray 10 = ⟨0, 0, 0⟩
      ∧ render_shaded wrec2 wscenemiss wray 10 = ⟨0, 0, 0⟩
      ∧ render_normals wrec1 wscenemiss wray 10 = ⟨0, 0, 0⟩
      ∧ render_distances wscenemiss wray 10 = ⟨0, 0, 0⟩ := by
  have hmiss : ∀ o ∈ wscenemiss.objects, (o wray).1 = ⊤ := by
    intro o ho
    simp only [wscenemiss, List.mem_singleton] at ho
    rw [ho]
    rfl
  have h0 := claim_C10.1 wscenemiss wray hmiss
  have htop : (scene_intersect_ray wscenemiss wray).1 = ⊤ := by rw [h0]
  have h1 := claim_C10.2.2 wrec1 wscenemiss wray 10 htop
  have h2 := claim_C10.2.2 wrec2 wscenemiss wray 10 htop
  exact ⟨h0, h1.1, h2.1, h1.2.1, h1.2.2⟩

/-- C2: at positive depth the shaded renderer returns black when the
nearest-hit query reports no hit, and otherwise returns
`local + 0.2 · reflected` where `local` is the hit material's shade and
`reflected` is the recursive trace, at decremented depth, of the
perfect-mirror ray reflecting the incoming direction about the hit normal
from the hit point; for rays missing every object it returns exactly the
black background; the top-level depth budget `MAX_DEPTH` is 10. -/
theorem claim_C2 :
    MAX_DEPTH = 10
    ∧ (∀ (junk : object_intersection) (s : scene) (r : ray) (depth : ℤ),
        0 < depth → (scene_intersect_ray s r).1 = ⊤ →
        render_shaded junk s r depth = ⟨0, 0, 0⟩)
    ∧ (∀ (junk : object_intersection) (s : scene) (r : ray) (depth : ℤ),
        0 < depth → ∀ ci : object_intersection,
        (scene_intersect_ray s r).2 = some ci →
        render_shaded junk s r depth
          = vec3_add
              (vec3_mul
                (render_shaded junk s
                  ⟨ci.location.point,
                    vec3_reflect r.direction ci.location.normal⟩
                  (depth - 1))
                (1/5))
              (ci.material ci.location r))
    ∧ (∀ (junk : object_intersection) (s : scene) (r : ray) (depth : ℤ),
        0 < depth → (∀ o ∈ s.objects, (o r).1 = ⊤) →
        render_shaded junk s r depth = ⟨0, 0, 0⟩) := by
  refine ⟨rfl,
    fun junk s r depth _ h => render_shaded_of_top junk s r depth h,
    fun junk s r depth hd ci h => render_shaded_of_some junk s r depth hd ci h,
    fun junk s r depth _ h => ?_⟩
  have := scene_intersect_ray_all_miss r s h
  exact render_shaded_of_top junk s r depth (by rw [this])

/-- Witness for C2: on a concrete all-miss scene the shaded renderer
returns black at full depth, and on a concrete hit scene it returns the
attenuated reflected trace plus the hit material's shade. -/
theorem claim_C2_witness :
    render_shaded wrec2 wscenemiss wray 10 = ⟨0, 0, 0⟩
      ∧ render_shaded wrec2 wscene12 wray 10
          = vec3_add
              (vec3_mul
                (render_shaded wrec2 wscene12
                  ⟨wrec1.location.point,
                    vec3_reflect wray.direction wrec1.location.normal⟩
                  9)
                (1/5))
              (wrec1.material wrec1.location wray) := by
  refine ⟨claim_C2.2.2.2 wrec2 wscenemiss wray 10 (by decide) ?_, ?_⟩
  · intro o ho
    simp only [wscenemiss, List.mem_singleton] at ho
    rw [ho]
    rfl
  · exact claim_C2.2.2.1 wrec2 wscene12 wray 10 (by decide) wrec1 rfl

/-- C6: in distance-visualization mode a ray hitting at finite distance
`d` produces intensity `1 / (d + 1)` replicated across the three
channels; that intensity is strictly decreasing in the hit distance and
lies in `(0, 1]` for every positive distance. -/
theorem claim_C6 :
    (∀ (s : scene) (r : ray) (depth : ℤ) (d : ℚ),
        (scene_intersect_ray s r).1 = (d : WithTop ℚ) →
        render_distances s r depth
          = ⟨distance_repr d, distance_repr d, distance_repr d⟩)
    ∧ (∀ d₁ d₂ : ℚ, 0 < d₁ → d₁ < d₂ → distance_repr d₂ < distance_repr d₁)
    ∧ (∀ d : ℚ, 0 < d → 0 < distance_repr d ∧ distance_repr d ≤ 1) := by
  refine ⟨?_, ?_, ?_⟩
  · intro s r depth d h
    simp only [render_distances, h, WithTop.coe_ne_top, if_false,
      WithTop.untop'_coe, distance_repr]
  · intro d₁ d₂ h₁ h₁₂
    simp only [distance_repr]
    rw [div_lt_div_iff₀ (by linarith) (by linarith)]
    nlinarith
  · intro d hd
    simp only [distance_repr]
    constructor
    · exact div_pos one_pos (by linarith)
    · rw [div_le_one (by linarith)]
      linarith

/-- Witness for C6: on the concrete hit scene (nearest distance 2) the
distance visualizer outputs intensity `1/3` on all channels, and the
formula is decreasing and within bounds at concrete distances. -/
theorem claim_C6_witness :
    render_distances wscene12 wray 10
        = ⟨distance_repr 2, distance_repr 2, distance_repr 2⟩
      ∧ distance_repr 3 < distance_repr 2
      ∧ 0 < distance_repr 2 ∧ distance_repr 2 ≤ 1 := by
  refine ⟨claim_C6.1 wscene12 wray 10 2 rfl,
    claim_C6.2.1 2 3 (by norm_num) (by norm_num), ?_⟩
  exact claim_C6.2.2 2 (by norm_num)

/-- Nonnegative lower bounds propagate through the running minimum of a
distance list. -/
theorem foldl_min_pos (l : List (WithTop ℚ)) (a : WithTop ℚ)
    (ha : 0 < a) (hl : ∀ x ∈ l, 0 < x) : 0 < l.foldl min a := by
  induction l generalizing a with
  | nil => exact ha
  | cons x xs ih =>
      rw [List.foldl_cons]
      exact ih (min a x)
        (lt_min ha (hl x (List.mem_cons_self x xs)))
        (fun y hy => hl y (List.mem_cons_of_mem x hy))

/-- C8: under the intersection contract — every object's reported distance
is positive or infinite — the nearest-hit distance is strictly positive,
so whenever it is finite the assertion `closest_intersection_dist > 0` in
`render_distances` holds and its failure branch is unreachable. -/
theorem claim_C8 :
    ∀ (s : scene) (r : ray),
      (∀ o ∈ s.objects, 0 < (o r).1) →
      0 < (scene_intersect_ray s r).1
        ∧ ((scene_intersect_ray s r).1 ≠ ⊤ →
            ∃ d : ℚ, (scene_intersect_ray s r).1 = (d : WithTop ℚ)
              ∧ 0 < d) := by
  intro s r h
  have hpos : 0 < (scene_intersect_ray s r).1 := by
    rw [scene_intersect_ray_fst_foldl r s]
    refine foldl_min_pos _ _ (WithTop.coe_lt_top 0) ?_
    intro x hx
    rcases List.mem_map.mp hx with ⟨o, ho, rfl⟩
    exact h o ho
  refine ⟨hpos, fun hfin => ?_⟩
  rcases WithTop.ne_top_iff_exists.mp hfin with ⟨d, hd⟩
  refine ⟨d, hd.symm, ?_⟩
  rw [← hd] at hpos
  exact_mod_cast hpos

/-- Witness for C8 at the concrete two-object scene: both objects report
positive distances and the scanned nearest distance 2 is positive. -/
theorem claim_C8_witness :
    0 < (scene_intersect_ray wscene12 wray).1
      ∧ ((scene_intersect_ray wscene12 wray).1 ≠ ⊤ →
          ∃ d : ℚ, (scene_intersect_ray wscene12 wray).1 = (d : WithTop ℚ)
            ∧ 0 < d) := by
  refine claim_C8 wscene12 wray ?_
  intro o ho
  simp only [wscene12, List.mem_cons, List.mem_singleton,
    List.not_mem_nil, or_false] at ho
  rcases ho with rfl | rfl
  · decide
  · decide

/-- Later workers start no earlier than earlier workers end. -/
theorem worker_row_ranges_ordered (height n a b : ℕ) (hab : a < b) :
    worker_row_end height n a ≤ worker_row_start height n b := by
  unfold worker_row_end worker_row_start
  exact Nat.div_le_div_right (Nat.mul_le_mul (by omega) le_rfl)

/-- C3: with integer division, the row ranges
`[k·height/N, (k+1)·height/N)` for the `N` workers partition `[0, height)`
exactly whenever `N ≤ height`: every row is covered by some worker's
range, every range stays within the image, and no row lies in two distinct
workers' ranges. -/
theorem claim_C3 :
    ∀ height n : ℕ, 0 < n → n ≤ height →
      (∀ r : ℕ, r < height → ∃ k : ℕ, k < n ∧
          worker_row_start height n k ≤ r ∧ r < worker_row_end height n k)
      ∧ (∀ k : ℕ, k < n → worker_row_end height n k ≤ height)
      ∧ (∀ k₁ k₂ r : ℕ, k₁ < n → k₂ < n →
          worker_row_start height n k₁ ≤ r → r < worker_row_end height n k₁ →
          worker_row_start height n k₂ ≤ r → r < worker_row_end height n k₂ →
          k₁ = k₂) := by
  intro height n hn hnh
  have h0 : 0 < height := lt_of_lt_of_le hn hnh
  refine ⟨?_, ?_, ?_⟩
  · intro r hr
    set K := ((r + 1) * n - 1) / height with hK
    have hP1 : 1 ≤ (r + 1) * n :=
      Nat.one_le_iff_ne_zero.mpr (Nat.mul_ne_zero (by omega) (by omega))
    have hKn : K < n := by
      rw [hK, Nat.div_lt_iff_lt_mul h0]
      calc (r + 1) * n - 1 < (r + 1) * n := Nat.sub_lt hP1 one_pos
        _ ≤ height * n := Nat.mul_le_mul (by omega) le_rfl
        _ = n * height := Nat.mul_comm _ _
    refine ⟨K, hKn, ?_, ?_⟩
    · unfold worker_row_start
      have h1 : K * height ≤ (r + 1) * n - 1 := by
        rw [hK]
        exact Nat.div_mul_le_self _ _
      have e1 : (r + 1) * n = n * r + n := by ring
      have e2 : (r + 1) * n - 1 = (n - 1) + n * r := by
        rw [e1, Nat.add_sub_assoc hn (n * r), Nat.add_comm]
      have h2 : ((r + 1) * n - 1) / n = r := by
        rw [e2, Nat.add_mul_div_left _ _ hn,
          Nat.div_eq_of_lt (by omega), Nat.zero_add]
      calc K * height / n ≤ ((r + 1) * n - 1) / n := Nat.div_le_div_right h1
        _ = r := h2
    · unfold worker_row_end
      rw [Nat.lt_iff_add_one_le, Nat.le_div_iff_mul_le hn]
      have hmod := Nat.div_add_mod ((r + 1) * n - 1) height
      rw [← hK] at hmod
      have hMlt : ((r + 1) * n - 1) % height < height := Nat.mod_lt _ h0
      calc (r + 1) * n
          = ((r + 1) * n - 1) + 1 := (Nat.sub_add_cancel hP1).symm
        _ = height * K + ((r + 1) * n - 1) % height + 1 := by rw [hmod]
        _ = height * K + (((r + 1) * n - 1) % height + 1) :=
            Nat.add_assoc _ _ _
        _ ≤ height * K + height :=
            Nat.add_le_add_left (Nat.succ_le_of_lt hMlt) _
        _ = (K + 1) * height := by ring
  · intro k hk
    unfold worker_row_end
    calc (k + 1) * height / n
        ≤ n * height / n := Nat.div_le_div_right (Nat.mul_le_mul (by omega) le_rfl)
      _ = height := Nat.mul_div_cancel_left height hn
  · intro k₁ k₂ r _hk₁ _hk₂ hs₁ he₁ hs₂ he₂
    rcases Nat.lt_trichotomy k₁ k₂ with h | h | h
    · have hro : r < worker_row_start height n k₂ :=
        lt_of_lt_of_le he₁ (worker_row_ranges_ordered height n k₁ k₂ h)
      exact absurd hs₂ (not_le.mpr hro)
    · exact h
    · have hro : r < worker_row_start height n k₁ :=
        lt_of_lt_of_le he₂ (worker_row_ranges_ordered height n k₂ k₁ h)
      exact absurd hs₁ (not_le.mpr hro)

/-- Witness for C3 at `height = 10`, `N = 3`: row 5 is covered by some
worker's range, and worker 2's range stays within the image. -/
theorem claim_C3_witness :
    (∃ k : ℕ, k < 3 ∧ worker_row_start 10 3 k ≤ 5
        ∧ 5 < worker_row_end 10 3 k)
      ∧ worker_row_end 10 3 2 ≤ 10 := by
  refine ⟨(claim_C3 10 3 (by decide) (by decide)).1 5 (by decide), ?_⟩
  exact (claim_C3 10 3 (by decide) (by decide)).2.1 2 (by decide)

/-- Arguments that are neither recognized flag leave the mode unchanged. -/
theorem foldl_option_step_keep (l : List String) (m : render_mode)
    (h : ∀ a ∈ l, a ≠ "--normals" ∧ a ≠ "--distances") :
    l.foldl option_step m = m := by
  induction l generalizing m with
  | nil => rfl
  | cons a l ih =>
      have ha := h a (List.mem_cons_self a l)
      rw [List.foldl_cons]
      have hstep : option_step m a = m := by
        simp only [option_step, ha.1, ha.2, if_false]
      rw [hstep]
      exact ih m (fun a' ha' => h a' (List.mem_cons_of_mem a ha'))

/-- Dropping a prefix shorter than the left list distributes over
append. -/
theorem drop_append_of_le_len {α : Type} (n : ℕ) (l₁ l₂ : List α)
    (h : n ≤ l₁.length) : (l₁ ++ l₂).drop n = l₁.drop n ++ l₂ := by
  induction n generalizing l₁ with
  | zero => rfl
  | succ m ih =>
      cases l₁ with
      | nil => simp at h
      | cons a l₁ =>
          simp only [List.cons_append, List.drop_succ_cons]
          exact ih l₁ (by simpa using h)

/-- C7: `main` exits with code 1 (usage) on fewer than 2 positional
arguments, 41 when the scene file fails to load, 42 when worker creation
or join fails; with no flag it renders shaded, `--normals` selects
normal-visualization, `--distances` selects distance-visualization, and a
flag appended last wins over any earlier flags. -/
theorem claim_C7 :
    (∀ (argv : List String) (lok cok jok fok : Bool) (rc : ℤ),
        argv.length < 3 → main_exit argv lok cok jok fok rc = 1)
    ∧ (∀ (argv : List String) (cok jok fok : Bool) (rc : ℤ),
        3 ≤ argv.length → main_exit argv false cok jok fok rc = 41)
    ∧ (∀ (argv : List String) (jok fok : Bool) (rc : ℤ),
        3 ≤ argv.length → main_exit argv true false jok fok rc = 42)
    ∧ (∀ (argv : List String) (fok : Bool) (rc : ℤ),
        3 ≤ argv.length → main_exit argv true true false fok rc = 42)
    ∧ (∀ argv : List String,
        (∀ a ∈ argv.drop 3, a ≠ "--normals" ∧ a ≠ "--distances") →
        select_renderer argv = render_mode.shaded)
    ∧ (∀ argv : List String, 3 ≤ argv.length →
        select_renderer (argv ++ ["--normals"]) = render_mode.normals
          ∧ select_renderer (argv ++ ["--distances"])
              = render_mode.distances) := by
  refine ⟨?_, ?_, ?_, ?_, ?_, ?_⟩
  · intro argv lok cok jok fok rc h
    simp only [main_exit, h, if_true]
  · intro argv cok jok fok rc h
    simp only [main_exit, Nat.not_lt.mpr h, if_false]
    rfl
  · intro argv jok fok rc h
    simp only [main_exit, Nat.not_lt.mpr h, if_false]
    rfl
  · intro argv fok rc h
    simp only [main_exit, Nat.not_lt.mpr h, if_false]
    rfl
  · intro argv h
    exact foldl_option_step_keep _ _ h
  · intro argv h
    constructor
    · unfold select_renderer
      rw [drop_append_of_le_len 3 argv _ h, List.foldl_append]
      rfl
    · unfold select_renderer
      rw [drop_append_of_le_len 3 argv _ h, List.foldl_append]
      rfl

/-- Witness for C7 at concrete command lines: usage error, load error,
spawn and join errors, default mode, and both flags given in either order
(the last one wins). -/
theorem claim_C7_witness :
    main_exit ["prog"] true true true true 0 = 1
      ∧ main_exit ["prog", "scene.obj", "out.bmp"] false true true true 0 = 41
      ∧ main_exit ["prog", "scene.obj", "out.bmp"] true false true true 0 = 42
      ∧ main_exit ["prog", "scene.obj", "out.bmp"] true true false true 0 = 42
      ∧ select_renderer ["prog", "scene.obj", "out.bmp"] = render_mode.shaded
      ∧ select_renderer
          ["prog", "scene.obj", "out.bmp", "--normals", "--distances"]
            = render_mode.distances
      ∧ select_renderer
          ["prog", "scene.obj", "out.bmp", "--distances", "--normals"]
            = render_mode.normals := by
  refine ⟨claim_C7.1 ["prog"] true true true true 0 (by decide),
    claim_C7.2.1 ["prog", "scene.obj", "out.bmp"] true true true 0 (by decide),
    claim_C7.2.2.1 ["prog", "scene.obj", "out.bmp"] true true 0 (by decide),
    claim_C7.2.2.2.1 ["prog", "scene.obj", "out.bmp"] true 0 (by decide),
    claim_C7.2.2.2.2.1 ["prog", "scene.obj", "out.bmp"] ?_, ?_, ?_⟩
  · intro a ha
    simp at ha
  · exact (claim_C7.2.2.2.2.2
      ["prog", "scene.obj", "out.bmp", "--normals"] (by decide)).2
  · exact (claim_C7.2.2.2.2.2
      ["prog", "scene.obj", "out.bmp", "--distances"] (by decide)).1

/-- A jitter draw from a source value in `[0,1)` lies in the half-open
target interval. -/
theorem random_double_mem (lo hi u : ℚ) (hlh : lo < hi) (h0 : 0 ≤ u)
    (h1 : u < 1) :
    lo ≤ random_double lo hi u ∧ random_double lo hi u < hi := by
  unfold random_double
  constructor
  · nlinarith
  · nlinarith

/-- C4: the sampler draws exactly `NUM_SAMPLES = 4` rays per pixel; sample
`i`'s `(u, v)` offset within the unit pixel footprint lies in the half-open
quadrant `[cₓ/2, cₓ/2 + 1/2) × [cᵧ/2, cᵧ/2 + 1/2)` of the sub-cell
`(cₓ, cᵧ) = (i % 2, i / 2)`; those four sub-cells are pairwise distinct and
exhaust the 2×2 grid, so each sub-cell receives exactly one sample; each
sample's camera ray is traced independently at `MAX_DEPTH` through the
selected render mode, and the pixel color is the arithmetic mean of the 4
sample colors. -/
theorem claim_C4 :
    ∀ (cast : ℚ → ℚ → ray) (iw ih : ℚ) (x y : ℕ) (η : ℕ → ℚ),
      (∀ k, 0 ≤ η k ∧ η k < 1) →
      (NUM_SAMPLES = 4
        ∧ (image_cast_ray cast iw ih x y η).length = NUM_SAMPLES)
      ∧ (∀ i, i < NUM_SAMPLES → ∃ du dv : ℚ,
          image_cast_sample cast iw ih x y η i
              = cast (((x : ℚ) + du) / iw - 1/2) (((y : ℚ) + dv) / ih - 1/2)
            ∧ ((i % 2 : ℕ) : ℚ) * (1/2) ≤ du
            ∧ du < ((i % 2 : ℕ) : ℚ) * (1/2) + 1/2
            ∧ ((i / 2 : ℕ) : ℚ) * (1/2) ≤ dv
            ∧ dv < ((i / 2 : ℕ) : ℚ) * (1/2) + 1/2)
      ∧ ((List.range NUM_SAMPLES).map (fun i => (i % 2, i / 2))).Nodup
      ∧ (∀ p ∈ (List.range NUM_SAMPLES).map (fun i => (i % 2, i / 2)),
          p.1 < 2 ∧ p.2 < 2)
      ∧ (∀ (renderer : scene → ray → ℤ → vec3) (s : scene),
          aa_render renderer cast iw ih s x y η
            = ⟨((renderer s (image_cast_sample cast iw ih x y η 0) MAX_DEPTH).x
                 + (renderer s (image_cast_sample cast iw ih x y η 1) MAX_DEPTH).x
                 + (renderer s (image_cast_sample cast iw ih x y η 2) MAX_DEPTH).x
                 + (renderer s (image_cast_sample cast iw ih x y η 3) MAX_DEPTH).x) / 4,
               ((renderer s (image_cast_sample cast iw ih x y η 0) MAX_DEPTH).y
                 + (renderer s (image_cast_sample cast iw ih x y η 1) MAX_DEPTH).y
                 + (renderer s (image_cast_sample cast iw ih x y η 2) MAX_DEPTH).y
                 + (renderer s (image_cast_sample cast iw ih x y η 3) MAX_DEPTH).y) / 4,
               ((renderer s (image_cast_sample cast iw ih x y η 0) MAX_DEPTH).z
                 + (renderer s (image_cast_sample cast iw ih x y η 1) MAX_DEPTH).z
                 + (renderer s (image_cast_sample cast iw ih x y η 2) MAX_DEPTH).z
                 + (renderer s (image_cast_sample cast iw ih x y η 3) MAX_DEPTH).z) / 4⟩) := by
  intro cast iw ih x y η hη
  refine ⟨⟨rfl, rfl⟩, ?_, by decide, by decide, ?_⟩
  · intro i hi
    have hi4 : i < 4 := hi
    interval_cases i
    · refine ⟨random_double 0 (1/2) (η 1), random_double 0 (1/2) (η 0),
        rfl, ?_, ?_, ?_, ?_⟩
      · have hm := random_double_mem 0 (1/2) (η 1) (by norm_num)
          (hη 1).1 (hη 1).2
        push_cast
        linarith [hm.1]
      · have hm := random_double_mem 0 (1/2) (η 1) (by norm_num)
          (hη 1).1 (hη 1).2
        push_cast
        linarith [hm.2]
      · have hm := random_double_mem 0 (1/2) (η 0) (by norm_num)
          (hη 0).1 (hη 0).2
        push_cast
        linarith [hm.1]
      · have hm := random_double_mem 0 (1/2) (η 0) (by norm_num)
          (hη 0).1 (hη 0).2
        push_cast
        linarith [hm.2]
    · refine ⟨random_double (1/2) 1 (η 3), random_double 0 (1/2) (η 2),
        rfl, ?_, ?_, ?_, ?_⟩
      · have hm := random_double_mem (1/2) 1 (η 3) (by norm_num)
          (hη 3).1 (hη 3).2
        push_cast
        linarith [hm.1]
      · have hm := random_double_mem (1/2) 1 (η 3) (by norm_num)
          (hη 3).1 (hη 3).2
        push_cast
        linarith [hm.2]
      · have hm := random_double_mem 0 (1/2) (η 2) (by norm_num)
          (hη 2).1 (hη 2).2
        push_cast
        linarith [hm.1]
      · have hm := random_double_mem 0 (1/2) (η 2) (by norm_num)
          (hη 2).1 (hη 2).2
        push_cast
        linarith [hm.2]
    · refine ⟨random_double 0 (1/2) (η 5), random_double (1/2) 1 (η 4),
        rfl, ?_, ?_, ?_, ?_⟩
      · have hm := random_double_mem 0 (1/2) (η 5) (by norm_num)
          (hη 5).1 (hη 5).2
        push_cast
        linarith [hm.1]
      · have hm := random_double_mem 0 (1/2) (η 5) (by norm_num)
          (hη 5).1 (hη 5).2
        push_cast
        linarith [hm.2]
      · have hm := random_double_mem (1/2) 1 (η 4) (by norm_num)
          (hη 4).1 (hη 4).2
        push_cast
        linarith [hm.1]
      · have hm := random_double_mem (1/2) 1 (η 4) (by norm_num)
          (hη 4).1 (hη 4).2
        push_cast
        linarith [hm.2]
    · refine ⟨random_double (1/2) 1 (η 7), random_double (1/2) 1 (η 6),
        rfl, ?_, ?_, ?_, ?_⟩
      · have hm := random_double_mem (1/2) 1 (η 7) (by norm_num)
          (hη 7).1 (hη 7).2
        push_cast
        linarith [hm.1]
      · have hm := random_double_mem (1/2) 1 (η 7) (by norm_num)
          (hη 7).1 (hη 7).2
        push_cast
        linarith [hm.2]
      · have hm := random_double_mem (1/2) 1 (η 6) (by norm_num)
          (hη 6).1 (hη 6).2
        push_cast
        linarith [hm.1]
      · have hm := random_double_mem (1/2) 1 (η 6) (by norm_num)
          (hη 6).1 (hη 6).2
        push_cast
        linarith [hm.2]
  · intro renderer s
    simp only [aa_render, image_cast_ray, NUM_SAMPLES]
    rw [show List.range 4 = [0, 1, 2, 3] from rfl]
    simp only [List.map_cons, List.map_nil, List.foldl_cons, List.foldl_nil]
    simp only [vec3_add, vec3_mul, vec3.mk.injEq]
    refine ⟨?_, ?_, ?_⟩ <;> push_cast <;> ring

/-- Witness for C4: with all jitter draws forced to 0 and a constant-color
renderer, the pixel color is that constant (the mean of four equal
samples). -/
theorem claim_C4_witness :
    aa_render (fun _ _ _ => ⟨1, 2, 3⟩) (fun u v => ⟨⟨u, v, 0⟩, ⟨0, 1, 0⟩⟩)
        1 1 wscene12 0 0 (fun _ => 0) = ⟨1, 2, 3⟩ := by
  have h := (claim_C4 (fun u v => ⟨⟨u, v, 0⟩, ⟨0, 1, 0⟩⟩) 1 1 0 0 (fun _ => 0)
    (fun _ => ⟨le_refl 0, by norm_num⟩)).2.2.2.2 (fun _ _ _ => ⟨1, 2, 3⟩)
    wscene12
  rw [h]
  norm_num

end RT
